import Mathlib

/-!
Verification of the irmago session-store and HTTP-transport excerpt.

The Go sources embedded here:
* `internal/servercore/sessions.go` — the in-memory session store
  (`memorySessionStore.get/add/deleteExpired`), session creation
  (`Server.newSession`, `newSessionToken`).
* the client HTTP transport (`HTTPTransport.request/Post/Get/Delete`).

Conventions of the embedding:
* time is a `Nat` counting seconds; `time.Now()` inside a sweep is
  abstracted to a single instant `now` passed to the pass;
* the Go `map[string]*session` becomes an association list
  `List (String × Session)` whose keys are assumed distinct (`Nodup`)
  where a statement needs it, since Go maps guarantee key uniqueness;
* `rand.Int63()` draws are inputs: values in `[0, 2^63)` supplied by the
  caller of the embedded function;
* external effects (JSON marshalling, the network) are abstracted into
  explicit outcome fields of an `HttpExchange` record.
-/

namespace Irmago

/-- Session status, from the `server` package (referenced by
`sessions.go` as `server.Status`). Modelled from the spec:
states `INITIALIZED, CONNECTED, COMMUNICATING, CANCELLED, DONE, TIMEOUT`. -/
inductive Status where
  | initialized
  | connected
  | communicating
  | cancelled
  | done
  | timeout
deriving DecidableEq, Repr

/-- Modelled from the spec: `finished()` returns true exactly for the
terminal states `CANCELLED`, `DONE`, `TIMEOUT`. -/
def Status.finished : Status → Bool
  | .done => true
  | .cancelled => true
  | .timeout => true
  | _ => false

/-- Session action (`irma.Action`): disclosing, signing or issuing. -/
inductive Action where
  | disclosing
  | signing
  | issuing
deriving DecidableEq, Repr

/-- The part of an `irma.SessionRequest` the store and `newSession`
touch: the base `ClientTimeout` lives on the requestor request, the
`nonce`/`context` big integers on the session request.  `schemeLstatzk`
is modelled from the spec: the `Lstatzk` system parameter of the
credential scheme the request is about. -/
structure SessionRequestData where
  clientTimeout : Nat
  schemeLstatzk : Nat
  nonce : Nat
  context : Nat
deriving DecidableEq, Repr

/-- The fields of `session` (sessions.go lines 16–36) that the store
operations read or write.  `hasEvtSource` models `evtSource != nil`;
`resultStatus` models `result.Status`. -/
structure Session where
  token : String
  action : Action
  status : Status
  prevStatus : Status
  lastActive : Nat
  request : SessionRequestData
  hasEvtSource : Bool
  resultStatus : Status
deriving DecidableEq, Repr

/-- `maxSessionLifetime = 5 * time.Minute`, in seconds. -/
def maxSessionLifetime : Nat := 300

/-- `sessionChars` from sessions.go line 53. -/
def sessionChars : String :=
  "abcdefghijklmnopqrstuvwxyzABCDEFGHIJKLMNOPQRSTUVWXYZ0123456789"

/-- Modelled from the spec: `markAlive` refreshes the session's
`lastActive` timestamp to the current instant. -/
def Session.markAlive (s : Session) (now : Nat) : Session :=
  { s with lastActive := now }

/-- Modelled from the spec: `setStatus(st)` records
`prevStatus ← status; status ← st` and updates `result.status`
(signalling the event sink has no observable state here). -/
def Session.setStatus (s : Session) (st : Status) : Session :=
  { s with prevStatus := s.status, status := st, resultStatus := st }

/-- The Go `map[string]*session` as an association list. -/
abbrev Store := List (String × Session)

/-- Go map indexing `s.m[token]` (and `req.Header` lookup): the value
stored under the key, if any. -/
def lookupTok {α : Type} (t : String) : List (String × α) → Option α
  | [] => none
  | (k, s) :: rest => if k = t then some s else lookupTok t rest

/-- `memorySessionStore.get` (sessions.go lines 65–69): under a read
lock, return `s.m[token]`.  The second component is the store after the
call: the body performs no write, so it is the store itself. -/
def Store.get (store : Store) (token : String) : Option Session × Store :=
  (lookupTok token store, store)

/-- Go map assignment `s.m[token] = session` (the body of
`memorySessionStore.add`, lines 71–75): replace the entry under the key
when present, insert it otherwise. -/
def Store.add (store : Store) (token : String) (ses : Session) : Store :=
  if (lookupTok token store).isSome then
    store.map (fun p => if p.1 = token then (token, ses) else p)
  else
    store ++ [(token, ses)]

/-- The timeout the sweep applies to one session (sessions.go lines
89–92): the request's `ClientTimeout` when the session is still
`INITIALIZED` and that field is non-zero, else `maxSessionLifetime`. -/
def effectiveTimeout (s : Session) : Nat :=
  if s.status = Status.initialized ∧ s.request.clientTimeout ≠ 0 then
    s.request.clientTimeout
  else
    maxSessionLifetime

/-- The per-session body of the first sweep phase (lines 94–103) for a
session that is not recorded for deletion: an expired non-finished
session is marked alive and set to `TIMEOUT`; every other session is
untouched. -/
def sweepSession (now : Nat) (s : Session) : Session :=
  if s.lastActive + effectiveTimeout s < now ∧ s.status.finished = false then
    (s.markAlive now).setStatus Status.timeout
  else
    s

/-- The tokens the first sweep phase records in `expired` (lines
99–102): expired sessions already in a terminal state. -/
def expiredTokens (now : Nat) (store : Store) : List String :=
  (store.filter fun p =>
      decide (p.2.lastActive + effectiveTimeout p.2 < now) && p.2.status.finished).map
    Prod.fst

/-- `memorySessionStore.deleteExpired` (sessions.go lines 81–118).
Phase one (read lock): each expired non-terminal session is
`markAlive`d and set to `TIMEOUT`; each expired terminal session's
token is recorded.  Phase two (write lock): each recorded token has its
event sink closed when present and its entry removed.  The Go loop does
both phase-one effects in a single pass over the map; the two
sub-passes here act on disjoint sessions, so the result is the same.
Returns the store after the pass and the tokens whose event sink was
closed. -/
def deleteExpired (now : Nat) (store : Store) : Store × List String :=
  let expired := expiredTokens now store
  let swept := store.map fun p => (p.1, sweepSession now p.2)
  (swept.filter fun p => !(expired.contains p.1),
    expired.filter fun t => ((lookupTok t swept).map Session.hasEvtSource).getD false)

/-- One byte of `newSessionToken` (sessions.go line 153): the character
of `sessionChars` selected by a `rand.Int63()` value `v`, i.e. the one
at index `v % 62`. -/
def tokenChar (v : Nat) : Char :=
  sessionChars.toList.get
    ⟨v % 62, by
      have h62 : sessionChars.toList.length = 62 := by decide
      rw [h62]
      exact Nat.mod_lt v (by decide)⟩

/-- `newSessionToken` (sessions.go lines 150–156): 20 characters, the
`i`-th selected by the `i`-th `rand.Int63()` draw. -/
def newSessionToken (draws : Fin 20 → Nat) : String :=
  String.mk ((List.finRange 20).map fun i => tokenChar (draws i))

/-- Modelled from the spec / gabi: `Lstatzk` of
`gabi.DefaultSystemParameters[2048]`, the statistical zero-knowledge
parameter of the fixed default 2048-bit parameter set the code passes
to `RandomBigInt`.  (The numeric value lives in the external gabi
library; no theorem below depends on it.) -/
def defaultLstatzk2048 : Nat := 128

/-- Modelled from the spec / gabi: `gabi.RandomBigInt(len)` returns a
random integer of at most `len` bits; the randomness is an explicit
input `rng` here. -/
def randomBigInt (len rng : Nat) : Nat := rng % 2 ^ len

/-- `Server.newSession` (sessions.go lines 122–148): draw a token,
build the session in state `INITIALIZED` with `lastActive = now`,
overwrite the request's nonce with `RandomBigInt` at
`DefaultSystemParameters[2048].Lstatzk` bits and its context with the
constant `1`, then `add` it to the store.  Returns the session and the
store after the `add`. -/
def newSession (action : Action) (req : SessionRequestData)
    (draws : Fin 20 → Nat) (rngNonce : Nat) (now : Nat) (store : Store) :
    Session × Store :=
  let token := newSessionToken draws
  let ses : Session :=
    { token := token
      action := action
      status := Status.initialized
      prevStatus := Status.initialized
      lastActive := now
      request := { req with
        nonce := randomBigInt defaultLstatzk2048 rngNonce
        context := 1 }
      hasEvtSource := false
      resultStatus := Status.initialized }
  (ses, store.add token ses)

/-! ## HTTP transport (`HTTPTransport.request/Post/Get/Delete`) -/

/-- The HTTP methods `request` accepts (any other method panics). -/
inductive Method where
  | get
  | post
  | delete
deriving DecidableEq, Repr

/-- `irma.ApiError`: the error envelope an IRMA API server returns. -/
structure ApiError where
  status : Nat
  errorName : String
  description : String
  message : String
  stacktrace : String
deriving DecidableEq, Repr

/-- The `irma.ErrorType` values `request` can produce. -/
inductive ErrorType where
  | transport
  | serialization
  | api
  | serverResponse
deriving DecidableEq, Repr

/-- The fields of `irma.SessionError` that `request` fills:
`hasWrappedErr` models `Err != nil`. -/
structure SessionError where
  errorType : ErrorType
  status : Nat
  apiError : Option ApiError
  hasWrappedErr : Bool
deriving DecidableEq, Repr

/-- The `object` argument of `request`: absent, a bare string (token or
JWT), or a JSON-marshalled value; `marshalFails` models
`json.Marshal` returning an error. -/
inductive ReqObject where
  | none
  | str (s : String)
  | jsonVal (marshalFails : Bool)
deriving DecidableEq, Repr

/-- How `request` fills the caller's `result` on success. -/
inductive ReqResult where
  | notFilled
  | filledString (body : String)
  | filledJson (body : String)
deriving DecidableEq, Repr

/-- The external outcomes of one HTTP exchange, abstracted:
* `doFails` — `http.NewRequest` or `transport.client.Do` returns an
  error (no response exists);
* `statusCode`, `body` — the response;
* `readBodyFails` — `ioutil.ReadAll(res.Body)` returns an error;
* `parsedApiError` — the contents of the zero-valued `ApiError` after
  `json.Unmarshal(body, apierr)` (the code ignores the unmarshal error,
  so a body that is not an envelope leaves `errorName` empty);
* `resultUnmarshalFails` — `json.Unmarshal(body, result)` fails. -/
structure HttpExchange where
  doFails : Bool
  statusCode : Nat
  body : String
  readBodyFails : Bool
  parsedApiError : ApiError
  resultUnmarshalFails : Bool
deriving DecidableEq, Repr

/-- The headers `req.Header` carries after the `Set` calls of `request`
(part_000 lines 78–88): `Set` replaces an existing value or appends the
pair. -/
def headerSet (hs : List (String × String)) (k v : String) :
    List (String × String) :=
  if (hs.map Prod.fst).contains k then
    hs.map (fun p => if p.1 = k then (k, v) else p)
  else
    hs ++ [(k, v)]

/-- The header block of `request`: `User-Agent: irmago` always, a
`Content-Type` when a body is present (`text/plain` for a bare string,
`application/json` otherwise), then every custom header installed with
`SetHeader`, in order. -/
def requestHeaders (object : ReqObject) (custom : List (String × String)) :
    List (String × String) :=
  let hs := headerSet [] "User-Agent" "irmago"
  let hs :=
    match object with
    | ReqObject.none => hs
    | ReqObject.str _ => headerSet hs "Content-Type" "text/plain; charset=UTF-8"
    | ReqObject.jsonVal _ => headerSet hs "Content-Type" "application/json; charset=UTF-8"
  custom.foldl (fun acc p => headerSet acc p.1 p.2) hs

/-- `HTTPTransport.request` (part_000 lines 43–128), minus the header
block (`requestHeaders` above) and the two panics (ruled out by
`Method` and by `Get` passing no object).  `resultIsString` models
`result` being a `*string`. -/
def request (method : Method) (resultIsString : Bool) (object : ReqObject)
    (env : HttpExchange) : Except SessionError ReqResult :=
  match object with
  | ReqObject.jsonVal true =>
    Except.error ⟨ErrorType.serialization, 0, Option.none, true⟩
  | _ =>
    if env.doFails then
      Except.error ⟨ErrorType.transport, 0, Option.none, true⟩
    else if method = Method.delete then
      Except.ok ReqResult.notFilled
    else if env.readBodyFails then
      Except.error ⟨ErrorType.serverResponse, env.statusCode, Option.none, true⟩
    else if env.statusCode ≠ 200 then
      if env.parsedApiError.errorName = "" then
        Except.error ⟨ErrorType.serverResponse, env.statusCode, Option.none, false⟩
      else
        Except.error ⟨ErrorType.api, env.statusCode, some env.parsedApiError, false⟩
    else if resultIsString then
      Except.ok (ReqResult.filledString env.body)
    else if env.resultUnmarshalFails then
      Except.error ⟨ErrorType.serverResponse, env.statusCode, Option.none, true⟩
    else
      Except.ok (ReqResult.filledJson env.body)

/-- `HTTPTransport.Delete` (part_000 lines 140–143):
`request("", http.MethodDelete, nil, nil)`, return value discarded. -/
def transportDelete (env : HttpExchange) : Except SessionError ReqResult :=
  request Method.delete false ReqObject.none env

/-- The bound of `rand.Int63()`: values lie in `[0, 2^63)`. -/
def int63Bound : Nat := 2 ^ 63

/-- How many of the `2^63` possible `rand.Int63()` values select the
character of `sessionChars` at index `r` (via `tokenChar`, i.e. via
`v % 62`). -/
def drawCount (r : Nat) : Nat :=
  ((Finset.range int63Bound).filter fun v => v % 62 = r).card

/-! ## Concrete instances used by witnesses and counterexamples -/

/-- A request with no client timeout and zero nonce/context. -/
def reqZero : SessionRequestData :=
  { clientTimeout := 0, schemeLstatzk := 0, nonce := 0, context := 0 }

/-- A stale `INITIALIZED` session (created at instant 0, default timeout). -/
def sesInit : Session :=
  { token := "t1", action := Action.disclosing, status := Status.initialized
    prevStatus := Status.initialized, lastActive := 0, request := reqZero
    hasEvtSource := false, resultStatus := Status.initialized }

/-- A stale `DONE` session with an attached event sink. -/
def sesDone : Session :=
  { token := "t2", action := Action.disclosing, status := Status.done
    prevStatus := Status.communicating, lastActive := 0, request := reqZero
    hasEvtSource := true, resultStatus := Status.done }

/-- A `CONNECTED` session whose request set `clientTimeout = 1` second,
last active at instant 0. -/
def sesConn : Session :=
  { token := "t3", action := Action.disclosing, status := Status.connected
    prevStatus := Status.initialized, lastActive := 0
    request := { reqZero with clientTimeout := 1 }
    hasEvtSource := false, resultStatus := Status.connected }

/-- A `CONNECTED` session that is not yet expired at instant 10. -/
def sesFresh : Session :=
  { token := "t4", action := Action.signing, status := Status.connected
    prevStatus := Status.initialized, lastActive := 5, request := reqZero
    hasEvtSource := false, resultStatus := Status.connected }

/-- The two-session store used by the C1 witness. -/
def storeC1 : Store := [("t1", sesInit), ("t2", sesDone)]

/-- A live `CONNECTED` session stored under the token of twenty `a`s —
the token `newSessionToken` produces when every `rand.Int63()` draw is
0. -/
def sesLive : Session :=
  { token := "aaaaaaaaaaaaaaaaaaaa", action := Action.issuing
    status := Status.connected, prevStatus := Status.initialized
    lastActive := 50, request := reqZero
    hasEvtSource := false, resultStatus := Status.connected }

/-- A store already holding `sesLive` under the all-`a` token. -/
def storeC3 : Store := [("aaaaaaaaaaaaaaaaaaaa", sesLive)]

/-- A request naming a credential scheme whose `Lstatzk` is 80 bits
(the gabi 1024-bit parameter level), with requestor-submitted nonce and
context. -/
def req80 : SessionRequestData :=
  { clientTimeout := 0, schemeLstatzk := 80, nonce := 7, context := 9 }

/-- An exchange where the server answers 404 with a parseable error
envelope. -/
def envApi : HttpExchange :=
  { doFails := false, statusCode := 404, body := "envelope"
    readBodyFails := false
    parsedApiError :=
      { status := 404, errorName := "SESSION_UNKNOWN"
        description := "Session unknown", message := "", stacktrace := "" }
    resultUnmarshalFails := false }

/-- An exchange where the server answers 500 with a body that is not an
error envelope (the zero-valued parse leaves `errorName` empty). -/
def envPlain : HttpExchange :=
  { doFails := false, statusCode := 500, body := "oops"
    readBodyFails := false
    parsedApiError :=
      { status := 0, errorName := "", description := "", message := ""
        stacktrace := "" }
    resultUnmarshalFails := false }

/-! ## Helper lemmas -/

theorem lookupTok_eq_some_of_mem {α : Type} {l : List (String × α)}
    (hnd : (l.map Prod.fst).Nodup) {t : String} {s : α}
    (hmem : (t, s) ∈ l) : lookupTok t l = some s := by
  induction l with
  | nil => cases hmem
  | cons hd tl ih =>
    obtain ⟨k, v⟩ := hd
    simp only [List.map_cons, List.nodup_cons] at hnd
    rcases List.mem_cons.mp hmem with h | h
    · cases h
      simp [lookupTok]
    · have hk : k ≠ t := by
        intro hkt
        subst hkt
        exact hnd.1 (List.mem_map.mpr ⟨(k, s), h, rfl⟩)
      simp only [lookupTok, if_neg hk]
      exact ih hnd.2 h

theorem mem_of_lookupTok_eq_some {α : Type} {l : List (String × α)}
    {t : String} {s : α} (h : lookupTok t l = some s) : (t, s) ∈ l := by
  induction l with
  | nil => simp [lookupTok] at h
  | cons hd tl ih =>
    obtain ⟨k, v⟩ := hd
    by_cases hk : k = t
    · subst hk
      simp [lookupTok] at h
      subst h
      exact List.mem_cons_self _ _
    · simp only [lookupTok, if_neg hk] at h
      exact List.mem_cons_of_mem _ (ih h)

theorem keys_nodup_unique {α : Type} {l : List (String × α)}
    (hnd : (l.map Prod.fst).Nodup) {t : String} {a b : α}
    (ha : (t, a) ∈ l) (hb : (t, b) ∈ l) : a = b := by
  have h1 := lookupTok_eq_some_of_mem hnd ha
  have h2 := lookupTok_eq_some_of_mem hnd hb
  rw [h1] at h2
  exact Option.some.inj h2

theorem lookupTok_map_snd (f : Session → Session) (l : Store) (t : String) :
    lookupTok t (l.map fun p => (p.1, f p.2)) = (lookupTok t l).map f := by
  induction l with
  | nil => simp [lookupTok]
  | cons hd tl ih =>
    obtain ⟨k, v⟩ := hd
    by_cases hk : k = t
    · subst hk
      simp [lookupTok]
    · simp only [List.map_cons, lookupTok, if_neg hk]
      exact ih

theorem contains_eq_false_of_not_mem {l : List String} {t : String}
    (h : t ∉ l) : l.contains t = false := by
  cases hco : l.contains t
  · rfl
  · exact absurd (List.elem_iff.mp hco) h

theorem mem_expiredTokens {now : Nat} {t : String} {store : Store} :
    t ∈ expiredTokens now store ↔
      ∃ s, (t, s) ∈ store ∧ s.lastActive + effectiveTimeout s < now ∧
        s.status.finished = true := by
  simp only [expiredTokens, List.mem_map, List.mem_filter]
  constructor
  · rintro ⟨⟨t', s⟩, ⟨hmem, hcond⟩, rfl⟩
    rw [Bool.and_eq_true, decide_eq_true_iff] at hcond
    exact ⟨s, hmem, hcond.1, hcond.2⟩
  · rintro ⟨s, hmem, hexp, hfin⟩
    exact ⟨(t, s), ⟨hmem, by rw [Bool.and_eq_true, decide_eq_true_iff]; exact ⟨hexp, hfin⟩⟩, rfl⟩

theorem lookupTok_none_iff_not_mem_keys {α : Type} {l : List (String × α)}
    {t : String} : lookupTok t l = none ↔ t ∉ l.map Prod.fst := by
  induction l with
  | nil => simp [lookupTok]
  | cons hd tl ih =>
    obtain ⟨k, v⟩ := hd
    by_cases hk : k = t
    · subst hk
      simp [lookupTok]
    · simp only [lookupTok, if_neg hk, List.map_cons, List.mem_cons, ih]
      constructor
      · intro h hc
        rcases hc with h1 | h2
        · exact hk h1.symm
        · exact h h2
      · intro h h2
        exact h (Or.inr h2)

theorem lookupTok_replace {α : Type} (l : List (String × α)) (t : String) (s : α) :
    lookupTok t (l.map fun p => if p.1 = t then (t, s) else p) =
      (lookupTok t l).map fun _ => s := by
  induction l with
  | nil => rfl
  | cons hd tl ih =>
    obtain ⟨k, v⟩ := hd
    rw [List.map_cons]
    by_cases hk : k = t
    · subst hk
      rw [show (if ((k, v) : String × α).1 = k then (k, s) else (k, v)) = (k, s) from
        if_pos rfl]
      simp only [lookupTok, if_pos rfl]
      rfl
    · rw [show (if ((k, v) : String × α).1 = t then (t, s) else (k, v)) = (k, v) from
        if_neg hk]
      simp only [lookupTok, if_neg hk]
      exact ih

theorem lookupTok_replace_ne {α : Type} (l : List (String × α)) {t t' : String}
    (s : α) (h : t' ≠ t) :
    lookupTok t' (l.map fun p => if p.1 = t then (t, s) else p) = lookupTok t' l := by
  induction l with
  | nil => rfl
  | cons hd tl ih =>
    obtain ⟨k, v⟩ := hd
    rw [List.map_cons]
    by_cases hk : k = t
    · subst hk
      rw [show (if ((k, v) : String × α).1 = k then (k, s) else (k, v)) = (k, s) from
        if_pos rfl]
      have hne : ¬k = t' := fun hc => h hc.symm
      simp only [lookupTok, if_neg hne]
      exact ih
    · rw [show (if ((k, v) : String × α).1 = t then (t, s) else (k, v)) = (k, v) from
        if_neg hk]
      simp only [lookupTok]
      by_cases hk' : k = t'
      · rw [if_pos hk', if_pos hk']
      · rw [if_neg hk', if_neg hk']
        exact ih

theorem lookupTok_append_some {α : Type} {l₁ : List (String × α)}
    (l₂ : List (String × α)) {t : String} {v : α}
    (h : lookupTok t l₁ = some v) : lookupTok t (l₁ ++ l₂) = some v := by
  induction l₁ with
  | nil => cases h
  | cons hd tl ih =>
    obtain ⟨k, w⟩ := hd
    by_cases hk : k = t
    · subst hk
      simp only [lookupTok, if_pos rfl] at h ⊢
      exact h
    · simp only [lookupTok, if_neg hk, List.cons_append] at h ⊢
      exact ih h

theorem lookupTok_append_none {α : Type} {l₁ : List (String × α)}
    (l₂ : List (String × α)) {t : String}
    (h : lookupTok t l₁ = none) : lookupTok t (l₁ ++ l₂) = lookupTok t l₂ := by
  induction l₁ with
  | nil => rfl
  | cons hd tl ih =>
    obtain ⟨k, w⟩ := hd
    by_cases hk : k = t
    · subst hk
      simp [lookupTok] at h
    · simp only [lookupTok, if_neg hk, List.cons_append] at h ⊢
      exact ih h

theorem lookupTok_add_self (store : Store) (t : String) (s : Session) :
    lookupTok t (Store.add store t s) = some s := by
  unfold Store.add
  by_cases hp : (lookupTok t store).isSome = true
  · rw [if_pos hp, lookupTok_replace]
    cases h : lookupTok t store with
    | some v => rfl
    | none =>
      rw [h] at hp
      cases hp
  · rw [if_neg hp]
    have hnone : lookupTok t store = none := Option.not_isSome_iff_eq_none.mp hp
    rw [lookupTok_append_none _ hnone]
    simp [lookupTok]

theorem lookupTok_add_ne (store : Store) {t t' : String} (s : Session)
    (h : t' ≠ t) :
    lookupTok t' (Store.add store t s) = lookupTok t' store := by
  unfold Store.add
  by_cases hp : (lookupTok t store).isSome = true
  · rw [if_pos hp]
    exact lookupTok_replace_ne store s h
  · rw [if_neg hp]
    cases h' : lookupTok t' store with
    | some v => exact lookupTok_append_some _ h'
    | none =>
      rw [lookupTok_append_none _ h']
      simp only [lookupTok]
      exact if_neg fun hc : t = t' => h hc.symm

theorem add_keys_nodup (store : Store) (t : String) (s : Session)
    (hnd : (store.map Prod.fst).Nodup) :
    ((Store.add store t s).map Prod.fst).Nodup := by
  unfold Store.add
  by_cases hp : (lookupTok t store).isSome = true
  · rw [if_pos hp]
    have hkeys : ((store.map fun p => if p.1 = t then (t, s) else p).map Prod.fst) =
        store.map Prod.fst := by
      rw [List.map_map]
      apply List.map_congr_left
      intro p _
      by_cases hk : p.1 = t
      · simp [hk]
      · simp [hk]
    rw [hkeys]
    exact hnd
  · rw [if_neg hp]
    have hnone : lookupTok t store = none := Option.not_isSome_iff_eq_none.mp hp
    have hnm : t ∉ store.map Prod.fst := lookupTok_none_iff_not_mem_keys.mp hnone
    rw [List.map_append]
    refine List.Nodup.append hnd (List.nodup_singleton t) ?_
    intro x hx hx2
    simp only [List.map_singleton, List.mem_singleton] at hx2
    subst hx2
    exact hnm hx

/-! ## Claim theorems -/

/-- C1: In every `deleteExpired` pass, each session whose `lastActive`
plus effective timeout (the request's `clientTimeout` when the status
is `INITIALIZED` and that field is non-zero, else five minutes) lies
before the current instant is handled as follows: a non-terminal
session is refreshed via `markAlive` and set to `TIMEOUT`, remaining in
the store for this pass; a terminal session is removed from the map in
the second, write-locked phase, its event sink being closed when
present. -/
theorem deleteExpired_expired_behavior (now : Nat) (store : Store)
    (hnd : (store.map Prod.fst).Nodup) (t : String) (s : Session)
    (hmem : (t, s) ∈ store)
    (hexp : s.lastActive + effectiveTimeout s < now) :
    (s.status.finished = false →
      (t, (s.markAlive now).setStatus Status.timeout) ∈ (deleteExpired now store).1) ∧
    (s.status.finished = true →
      (∀ s', (t, s') ∉ (deleteExpired now store).1) ∧
      (s.hasEvtSource = true → t ∈ (deleteExpired now store).2)) := by
  constructor
  · intro hfin
    have htex : t ∉ expiredTokens now store := by
      intro hc
      obtain ⟨s', hmem', _, hfin'⟩ := mem_expiredTokens.mp hc
      have := keys_nodup_unique hnd hmem' hmem
      subst this
      rw [hfin] at hfin'
      cases hfin'
    have hsw : (t, sweepSession now s) ∈
        store.map fun p => (p.1, sweepSession now p.2) :=
      List.mem_map.mpr ⟨(t, s), hmem, rfl⟩
    have heq : sweepSession now s = (s.markAlive now).setStatus Status.timeout :=
      if_pos ⟨hexp, hfin⟩
    rw [heq] at hsw
    refine List.mem_filter.mpr ⟨hsw, ?_⟩
    rw [contains_eq_false_of_not_mem htex]
    rfl
  · intro hfin
    have htex : t ∈ expiredTokens now store :=
      mem_expiredTokens.mpr ⟨s, hmem, hexp, hfin⟩
    constructor
    · intro s' hmem'
      have hflt := List.mem_filter.mp hmem'
      have hcf : (expiredTokens now store).contains t = true :=
        List.elem_iff.mpr htex
      rw [hcf] at hflt
      cases hflt.2
    · intro hsink
      refine List.mem_filter.mpr ⟨htex, ?_⟩
      have hlk : lookupTok t (store.map fun p => (p.1, sweepSession now p.2)) =
          some (sweepSession now s) := by
        rw [lookupTok_map_snd, lookupTok_eq_some_of_mem hnd hmem]
        rfl
      have hid : sweepSession now s = s := by
        unfold sweepSession
        rw [if_neg]
        rintro ⟨-, hf⟩
        rw [hfin] at hf
        cases hf
      rw [hlk, hid]
      simp [hsink]

/-- Witness for C1: in a store holding a stale `INITIALIZED` session
and a stale `DONE` session with a sink, the pass at instant 301 removes
the `DONE` session and closes its sink. -/
theorem deleteExpired_expired_behavior_witness :
    (storeC1.map Prod.fst).Nodup ∧ ("t2", sesDone) ∈ storeC1 ∧
      sesDone.lastActive + effectiveTimeout sesDone < 301 ∧
      ((∀ s', ("t2", s') ∉ (deleteExpired 301 storeC1).1) ∧
        (sesDone.hasEvtSource = true → "t2" ∈ (deleteExpired 301 storeC1).2)) :=
  ⟨by decide, by decide, by decide,
    (deleteExpired_expired_behavior 301 storeC1 (by decide) "t2" sesDone
        (by decide) (by decide)).2 (by decide)⟩

/-- C2 counterexample: a `CONNECTED` session with `clientTimeout = 1`
whose `lastActive + clientTimeout` is long past (instant 100) is NOT
timed out by the pass — it survives unchanged, still `CONNECTED` —
because `deleteExpired` consults `clientTimeout` only while the status
is `INITIALIZED`. -/
theorem connected_clientTimeout_ignored_cx :
    sesConn.status = Status.connected ∧
      sesConn.request.clientTimeout = 1 ∧
      sesConn.lastActive + sesConn.request.clientTimeout < 100 ∧
      (deleteExpired 100 [("t3", sesConn)]).1 = [("t3", sesConn)] ∧
      sesConn.status ≠ Status.timeout := by
  decide

/-- C2 amended: once a session has reached `CONNECTED` (or
`COMMUNICATING`), the reaper applies the five-minute default bound
regardless of the request's `clientTimeout`; such a session is marked
`TIMEOUT` by the sweep exactly when `lastActive` plus five minutes is
in the past.  (`clientTimeout` bounds only sessions still
`INITIALIZED`.) -/
theorem connected_default_timeout (s : Session) (now : Nat)
    (hst : s.status = Status.connected ∨ s.status = Status.communicating) :
    effectiveTimeout s = maxSessionLifetime ∧
      (sweepSession now s = (s.markAlive now).setStatus Status.timeout ↔
        s.lastActive + maxSessionLifetime < now) := by
  have hni : ¬(s.status = Status.initialized ∧ s.request.clientTimeout ≠ 0) := by
    rintro ⟨h1, -⟩
    rcases hst with h | h <;> rw [h] at h1 <;> cases h1
  have het : effectiveTimeout s = maxSessionLifetime := if_neg hni
  have hfin : s.status.finished = false := by
    rcases hst with h | h <;> rw [h] <;> rfl
  refine ⟨het, ?_, ?_⟩
  · intro hsw
    by_contra hlt
    unfold sweepSession at hsw
    rw [if_neg] at hsw
    · have hstat := congrArg Session.status hsw
      simp only [Session.setStatus] at hstat
      rcases hst with h | h <;> rw [h] at hstat <;> cases hstat
    · rintro ⟨hc, -⟩
      rw [het] at hc
      exact hlt hc
  · intro hlt
    unfold sweepSession
    rw [if_pos ⟨by rw [het]; exact hlt, hfin⟩]

/-- Witness for C2's amended theorem: `sesConn` (connected,
`clientTimeout = 1`, last active at 0) at instant 301. -/
theorem connected_default_timeout_witness :
    (sesConn.status = Status.connected ∨ sesConn.status = Status.communicating) ∧
      (effectiveTimeout sesConn = maxSessionLifetime ∧
        (sweepSession 301 sesConn = (sesConn.markAlive 301).setStatus Status.timeout ↔
          sesConn.lastActive + maxSessionLifetime < 301)) :=
  ⟨Or.inl rfl, connected_default_timeout sesConn 301 (Or.inl rfl)⟩

/-- C6 counterexample: the pass at instant 301 over a store holding the
stale `INITIALIZED` session `sesInit` (lastActive 0) leaves the session
in the store with `lastActive = 301`: `markAlive` inside the sweep
moved the timestamp later, so lastActive-after is NOT bounded by
lastActive-before. -/
theorem deleteExpired_extends_lastActive_cx :
    sesInit.lastActive = 0 ∧
      (lookupTok "t1" (deleteExpired 301 [("t1", sesInit)]).1).map Session.lastActive =
        some 301 ∧
      ¬(301 ≤ sesInit.lastActive) := by
  decide

/-- C6 amended: a reaper pass leaves every session's `lastActive`
unchanged except for the sessions it transitions to `TIMEOUT`, whose
timestamp it refreshes to the pass's current instant (which is strictly
later than their previous `lastActive`). -/
theorem deleteExpired_lastActive_spec (now : Nat) (store : Store)
    (t : String) (s' : Session)
    (hmem : (t, s') ∈ (deleteExpired now store).1) :
    ∃ s, (t, s) ∈ store ∧
      (s' = s ∨
        (s' = (s.markAlive now).setStatus Status.timeout ∧
          s.lastActive < now ∧ s'.lastActive = now)) := by
  have hflt := List.mem_filter.mp hmem
  obtain ⟨⟨t0, s0⟩, hmem0, heq⟩ := List.mem_map.mp hflt.1
  have ht : t0 = t := congrArg Prod.fst heq
  have hs : sweepSession now s0 = s' := congrArg Prod.snd heq
  subst ht
  refine ⟨s0, hmem0, ?_⟩
  unfold sweepSession at hs
  by_cases hc : s0.lastActive + effectiveTimeout s0 < now ∧ s0.status.finished = false
  · rw [if_pos hc] at hs
    refine Or.inr ⟨hs.symm, ?_, ?_⟩
    · exact Nat.lt_of_le_of_lt (Nat.le_add_right _ _) hc.1
    · rw [← hs]
      rfl
  · rw [if_neg hc] at hs
    exact Or.inl hs.symm

/-- Witness for C6's amended theorem: the fresh connected session
`sesFresh` survives the pass at instant 10 and satisfies the
conclusion. -/
theorem deleteExpired_lastActive_spec_witness :
    (("t4", sesFresh) ∈ (deleteExpired 10 [("t4", sesFresh)]).1) ∧
      ∃ s, ("t4", s) ∈ ([("t4", sesFresh)] : Store) ∧
        (sesFresh = s ∨
          (sesFresh = (s.markAlive 10).setStatus Status.timeout ∧
            s.lastActive < 10 ∧ sesFresh.lastActive = 10)) :=
  ⟨by decide,
    deleteExpired_lastActive_spec 10 [("t4", sesFresh)] "t4" sesFresh (by decide)⟩

/-- C7: `get` is a pure lookup: the store after the call is exactly the
store before it (so no session field, `lastActive` included, changes),
and the returned value is the session stored under the token (`none`
when absent). -/
theorem get_pure_lookup (store : Store) (token : String)
    (hnd : (store.map Prod.fst).Nodup) :
    (Store.get store token).2 = store ∧
      ∀ s, (Store.get store token).1 = some s ↔ (token, s) ∈ store :=
  ⟨rfl, fun _ =>
    ⟨fun h => mem_of_lookupTok_eq_some h, fun h => lookupTok_eq_some_of_mem hnd h⟩⟩

/-- Witness for C7: lookup of `"t2"` in the two-session store. -/
theorem get_pure_lookup_witness :
    (storeC1.map Prod.fst).Nodup ∧
      ((Store.get storeC1 "t2").2 = storeC1 ∧
        ∀ s, (Store.get storeC1 "t2").1 = some s ↔ ("t2", s) ∈ storeC1) :=
  ⟨by decide, get_pure_lookup storeC1 "t2" (by decide)⟩

/-- C3 counterexample: when the freshly drawn token collides with a
token already in the store, `newSession` overwrites the live session:
starting from a store holding `sesLive` under the all-`a` token and
drawing all-zero `rand.Int63()` values (which yield exactly that
token), the entry afterwards is the new session and `sesLive` is gone
from the store entirely — no rejection, no retry. -/
theorem newSession_overwrites_cx :
    newSessionToken (fun _ => 0) = "aaaaaaaaaaaaaaaaaaaa" ∧
      lookupTok "aaaaaaaaaaaaaaaaaaaa" storeC3 = some sesLive ∧
      lookupTok "aaaaaaaaaaaaaaaaaaaa"
          (newSession Action.disclosing reqZero (fun _ => 0) 0 60 storeC3).2 ≠
        some sesLive ∧
      ∀ p ∈ (newSession Action.disclosing reqZero (fun _ => 0) 0 60 storeC3).2,
        p.2 ≠ sesLive := by
  decide

/-- C3 amended: `newSession` draws its token without consulting the
store, and `add` is a plain map update: the new session is stored under
the drawn token (overwriting any previous entry there), every other
token's entry is untouched, and key-uniqueness of the map is preserved
— so "at most one session per token" holds because the store is a map,
not through collision rejection. -/
theorem newSession_add_spec (action : Action) (req : SessionRequestData)
    (draws : Fin 20 → Nat) (rngNonce now : Nat) (store : Store)
    (hnd : (store.map Prod.fst).Nodup) :
    (newSession action req draws rngNonce now store).2 =
        Store.add store (newSessionToken draws)
          (newSession action req draws rngNonce now store).1 ∧
      lookupTok (newSessionToken draws)
          (newSession action req draws rngNonce now store).2 =
        some (newSession action req draws rngNonce now store).1 ∧
      (∀ t, t ≠ newSessionToken draws →
        lookupTok t (newSession action req draws rngNonce now store).2 =
          lookupTok t store) ∧
      (((newSession action req draws rngNonce now store).2.map Prod.fst).Nodup) :=
  ⟨rfl, lookupTok_add_self store _ _,
    fun _ ht => lookupTok_add_ne store _ ht,
    add_keys_nodup store _ _ hnd⟩

/-- Witness for C3's amended theorem: adding over the two-session
store with all-zero draws. -/
theorem newSession_add_spec_witness :
    (storeC1.map Prod.fst).Nodup ∧
      ((newSession Action.signing reqZero (fun _ => 0) 3 7 storeC1).2 =
          Store.add storeC1 (newSessionToken fun _ => 0)
            (newSession Action.signing reqZero (fun _ => 0) 3 7 storeC1).1 ∧
        lookupTok (newSessionToken fun _ => 0)
            (newSession Action.signing reqZero (fun _ => 0) 3 7 storeC1).2 =
          some (newSession Action.signing reqZero (fun _ => 0) 3 7 storeC1).1 ∧
        (∀ t, t ≠ newSessionToken (fun _ => 0) →
          lookupTok t (newSession Action.signing reqZero (fun _ => 0) 3 7 storeC1).2 =
            lookupTok t storeC1) ∧
        (((newSession Action.signing reqZero (fun _ => 0) 3 7 storeC1).2.map
          Prod.fst).Nodup)) :=
  ⟨by decide,
    newSession_add_spec Action.signing reqZero (fun _ => 0) 3 7 storeC1 (by decide)⟩

theorem card_filter_mod62 (r n : Nat) (hr : r < 62) :
    ((Finset.range n).filter fun v => v % 62 = r).card =
      n / 62 + if r < n % 62 then 1 else 0 := by
  induction n with
  | zero => simp
  | succ n ih =>
    rw [Finset.range_succ, Finset.filter_insert]
    by_cases h : n % 62 = r
    · rw [if_pos h, Finset.card_insert_of_not_mem (by simp), ih,
        if_neg (by omega : ¬r < n % 62)]
      by_cases h3 : r < (n + 1) % 62
      · rw [if_pos h3]
        omega
      · rw [if_neg h3]
        omega
    · rw [if_neg h, ih]
      by_cases h1 : r < n % 62
      · rw [if_pos h1]
        by_cases h3 : r < (n + 1) % 62
        · rw [if_pos h3]
          omega
        · rw [if_neg h3]
          omega
      · rw [if_neg h1]
        by_cases h3 : r < (n + 1) % 62
        · rw [if_pos h3]
          omega
        · rw [if_neg h3]
          omega

/-- C4 counterexample: the per-character draw is NOT uniform.  A
character is chosen as `sessionChars[rand.Int63() % 62]`, and 62 does
not divide `2^63`: among the `2^63` equally likely `Int63` values,
strictly more select index 0 (the character `a`) than index 61 (the
character `9`). -/
theorem tokenChar_draw_not_uniform_cx :
    tokenChar 0 = 'a' ∧ tokenChar 61 = '9' ∧ drawCount 0 ≠ drawCount 61 := by
  refine ⟨by decide, by decide, ?_⟩
  unfold drawCount
  rw [card_filter_mod62 0 int63Bound (by decide),
    card_filter_mod62 61 int63Bound (by decide)]
  have hm : int63Bound % 62 = 8 := by decide
  rw [hm]
  norm_num

/-- C4 amended: every token `newSessionToken` returns is exactly 20
characters long and each character belongs to the 62-character alphabet
`sessionChars` (= `[a-zA-Z0-9]`); each character is selected by an
independent `rand.Int63()` draw via reduction modulo 62, which is close
to uniform but not exactly uniform (see the counterexample). -/
theorem newSessionToken_length_alphabet (draws : Fin 20 → Nat) :
    (newSessionToken draws).length = 20 ∧
      ∀ c ∈ (newSessionToken draws).toList, c ∈ sessionChars.toList := by
  constructor
  · simp [newSessionToken, String.length]
  · intro c hc
    have hc2 : c ∈ (List.finRange 20).map fun i => tokenChar (draws i) := hc
    obtain ⟨i, -, rfl⟩ := List.mem_map.mp hc2
    unfold tokenChar
    exact List.get_mem _ _ _

/-- C5 counterexample: `newSession` draws the nonce at the bit length
of the fixed default 2048-bit gabi parameter set, not at the chosen
scheme's `Lstatzk`: for a request whose scheme has `Lstatzk = 80`, the
returned nonce can exceed `2^80` (here the draw is `2^128 - 1`), so its
bit length is not the scheme's `Lstatzk`. -/
theorem newSession_nonce_ignores_scheme_cx :
    (newSession Action.disclosing req80 (fun _ => 0) (2 ^ 128 - 1) 0 []).1.request.schemeLstatzk =
        80 ∧
      ¬((newSession Action.disclosing req80 (fun _ => 0) (2 ^ 128 - 1) 0
            []).1.request.nonce <
          2 ^ 80) := by
  constructor
  · rfl
  · intro hc
    have h1 : (newSession Action.disclosing req80 (fun _ => 0) (2 ^ 128 - 1) 0
        []).1.request.nonce = 2 ^ 128 - 1 := by decide
    rw [h1] at hc
    revert hc
    decide

/-- C5 amended: at session creation `newSession` overwrites the
requestor-submitted nonce and context: the nonce becomes a fresh
random integer of bit length `Lstatzk` of gabi's DEFAULT 2048-bit
system parameters — independent of the chosen credential scheme — and
the context becomes the constant 1. -/
theorem newSession_nonce_context_spec (action : Action)
    (req : SessionRequestData) (draws : Fin 20 → Nat) (rngNonce now : Nat)
    (store : Store) :
    (newSession action req draws rngNonce now store).1.request.nonce =
        randomBigInt defaultLstatzk2048 rngNonce ∧
      (newSession action req draws rngNonce now store).1.request.nonce <
        2 ^ defaultLstatzk2048 ∧
      (newSession action req draws rngNonce now store).1.request.context = 1 := by
  refine ⟨rfl, ?_, rfl⟩
  show rngNonce % 2 ^ defaultLstatzk2048 < 2 ^ defaultLstatzk2048
  exact Nat.mod_lt _
    (Nat.pow_pos (show (0 : Nat) < 2 by decide) : 0 < 2 ^ defaultLstatzk2048)

theorem lookupTok_headerSet_self (hs : List (String × String)) (k v : String) :
    lookupTok k (headerSet hs k v) = some v := by
  unfold headerSet
  by_cases hp : (hs.map Prod.fst).contains k = true
  · rw [if_pos hp, lookupTok_replace]
    cases h : lookupTok k hs with
    | some w => rfl
    | none =>
      exact absurd (List.elem_iff.mp hp) (lookupTok_none_iff_not_mem_keys.mp h)
  · rw [if_neg hp]
    have hnm : k ∉ hs.map Prod.fst := fun hc => hp (List.elem_iff.mpr hc)
    rw [lookupTok_append_none _ (lookupTok_none_iff_not_mem_keys.mpr hnm)]
    simp [lookupTok]

theorem lookupTok_headerSet_ne (hs : List (String × String)) {k k' : String}
    (v : String) (h : k' ≠ k) :
    lookupTok k' (headerSet hs k v) = lookupTok k' hs := by
  unfold headerSet
  by_cases hp : (hs.map Prod.fst).contains k = true
  · rw [if_pos hp]
    exact lookupTok_replace_ne hs v h
  · rw [if_neg hp]
    cases h' : lookupTok k' hs with
    | some w => exact lookupTok_append_some _ h'
    | none =>
      rw [lookupTok_append_none _ h']
      simp only [lookupTok]
      exact if_neg fun hc : k = k' => h hc.symm

theorem lookupTok_foldl_headerSet (ps : List (String × String))
    (hs : List (String × String)) {k : String} (h : ∀ p ∈ ps, p.1 ≠ k) :
    lookupTok k (ps.foldl (fun acc p => headerSet acc p.1 p.2) hs) =
      lookupTok k hs := by
  induction ps generalizing hs with
  | nil => rfl
  | cons hd tl ih =>
    rw [List.foldl_cons, ih _ fun p hp => h p (List.mem_cons_of_mem _ hp)]
    exact lookupTok_headerSet_ne hs _ fun hc =>
      h hd (List.mem_cons_self _ _) hc.symm

/-- C8: for every GET or POST whose exchange produced an HTTP response
(no transport failure, no marshal failure) with a status other than
200, `request` returns an error and never fills the result: the error
carries the response status, has kind `api` with the parsed envelope
when the body parsed to an envelope with a non-empty error name, and
kind `serverResponse` otherwise. -/
theorem request_non200_error (method : Method) (resultIsString : Bool)
    (object : ReqObject) (env : HttpExchange)
    (hm : method = Method.get ∨ method = Method.post)
    (hser : object ≠ ReqObject.jsonVal true)
    (hdo : env.doFails = false)
    (hrd : env.readBodyFails = false)
    (hst : env.statusCode ≠ 200) :
    ∃ e, request method resultIsString object env = Except.error e ∧
      e.status = env.statusCode ∧
      (env.parsedApiError.errorName = "" → e.errorType = ErrorType.serverResponse) ∧
      (env.parsedApiError.errorName ≠ "" →
        e.errorType = ErrorType.api ∧ e.apiError = some env.parsedApiError) := by
  have hmd : method ≠ Method.delete := by
    rcases hm with h | h <;> subst h <;> intro hc <;> cases hc
  by_cases he : env.parsedApiError.errorName = ""
  · refine ⟨⟨ErrorType.serverResponse, env.statusCode, Option.none, false⟩, ?_, rfl,
      fun _ => rfl, fun hne => absurd he hne⟩
    cases object with
    | none => simp [request, hdo, hmd, hrd, hst, he]
    | str s => simp [request, hdo, hmd, hrd, hst, he]
    | jsonVal b =>
      cases b with
      | false => simp [request, hdo, hmd, hrd, hst, he]
      | true => exact absurd rfl hser
  · refine ⟨⟨ErrorType.api, env.statusCode, some env.parsedApiError, false⟩, ?_, rfl,
      fun h0 => absurd h0 he, fun _ => ⟨rfl, rfl⟩⟩
    cases object with
    | none => simp [request, hdo, hmd, hrd, hst, he]
    | str s => simp [request, hdo, hmd, hrd, hst, he]
    | jsonVal b =>
      cases b with
      | false => simp [request, hdo, hmd, hrd, hst, he]
      | true => exact absurd rfl hser

/-- Witness for C8: a GET answered with 404 and a parseable envelope. -/
theorem request_non200_error_witness :
    ((Method.get = Method.get ∨ Method.get = Method.post) ∧
      envApi.doFails = false ∧ envApi.readBodyFails = false ∧
      envApi.statusCode ≠ 200) ∧
      ∃ e, request Method.get false ReqObject.none envApi = Except.error e ∧
        e.status = envApi.statusCode ∧
        (envApi.parsedApiError.errorName = "" →
          e.errorType = ErrorType.serverResponse) ∧
        (envApi.parsedApiError.errorName ≠ "" →
          e.errorType = ErrorType.api ∧ e.apiError = some envApi.parsedApiError) :=
  ⟨⟨Or.inl rfl, rfl, rfl, by decide⟩,
    request_non200_error Method.get false ReqObject.none envApi (Or.inl rfl)
      (by decide) rfl rfl (by decide)⟩

/-- C9 counterexample: the transport sets `User-Agent: irmago`, not
`User-Agent: irmaserver`: on a request with no body and no custom
headers, the User-Agent header is `irmago`. -/
theorem request_userAgent_cx :
    lookupTok "User-Agent" (requestHeaders ReqObject.none []) = some "irmago" ∧
      lookupTok "User-Agent" (requestHeaders ReqObject.none []) ≠
        some "irmaserver" := by
  decide

/-- C9 amended: every outbound request carries `User-Agent: irmago`
(unless a custom header installed via `SetHeader` overrides it), and
when a body is present its `Content-Type` is
`text/plain; charset=UTF-8` for a bare string body and
`application/json; charset=UTF-8` otherwise; a body-less request
carries no `Content-Type`. -/
theorem request_headers_spec (object : ReqObject)
    (custom : List (String × String))
    (hua : ∀ p ∈ custom, p.1 ≠ "User-Agent")
    (hct : ∀ p ∈ custom, p.1 ≠ "Content-Type") :
    lookupTok "User-Agent" (requestHeaders object custom) = some "irmago" ∧
      (∀ s, object = ReqObject.str s →
        lookupTok "Content-Type" (requestHeaders object custom) =
          some "text/plain; charset=UTF-8") ∧
      (∀ b, object = ReqObject.jsonVal b →
        lookupTok "Content-Type" (requestHeaders object custom) =
          some "application/json; charset=UTF-8") ∧
      (object = ReqObject.none →
        lookupTok "Content-Type" (requestHeaders object custom) = none) := by
  cases object with
  | none =>
    refine ⟨?_, fun s h => ReqObject.noConfusion h,
      fun b h => ReqObject.noConfusion h, fun _ => ?_⟩
    · show lookupTok "User-Agent"
        (custom.foldl (fun acc p => headerSet acc p.1 p.2)
          (headerSet [] "User-Agent" "irmago")) = some "irmago"
      rw [lookupTok_foldl_headerSet custom _ hua]
      exact lookupTok_headerSet_self [] _ _
    · show lookupTok "Content-Type"
        (custom.foldl (fun acc p => headerSet acc p.1 p.2)
          (headerSet [] "User-Agent" "irmago")) = none
      rw [lookupTok_foldl_headerSet custom _ hct,
        lookupTok_headerSet_ne [] _ (by decide : "Content-Type" ≠ "User-Agent")]
      rfl
  | str s0 =>
    refine ⟨?_, fun s h => ?_, fun b h => ReqObject.noConfusion h,
      fun h => ReqObject.noConfusion h⟩
    · show lookupTok "User-Agent"
        (custom.foldl (fun acc p => headerSet acc p.1 p.2)
          (headerSet (headerSet [] "User-Agent" "irmago") "Content-Type"
            "text/plain; charset=UTF-8")) = some "irmago"
      rw [lookupTok_foldl_headerSet custom _ hua,
        lookupTok_headerSet_ne _ _ (by decide : "User-Agent" ≠ "Content-Type")]
      exact lookupTok_headerSet_self [] _ _
    · show lookupTok "Content-Type"
        (custom.foldl (fun acc p => headerSet acc p.1 p.2)
          (headerSet (headerSet [] "User-Agent" "irmago") "Content-Type"
            "text/plain; charset=UTF-8")) = some "text/plain; charset=UTF-8"
      rw [lookupTok_foldl_headerSet custom _ hct]
      exact lookupTok_headerSet_self _ _ _
  | jsonVal b0 =>
    refine ⟨?_, fun s h => ReqObject.noConfusion h, fun b h => ?_,
      fun h => ReqObject.noConfusion h⟩
    · show lookupTok "User-Agent"
        (custom.foldl (fun acc p => headerSet acc p.1 p.2)
          (headerSet (headerSet [] "User-Agent" "irmago") "Content-Type"
            "application/json; charset=UTF-8")) = some "irmago"
      rw [lookupTok_foldl_headerSet custom _ hua,
        lookupTok_headerSet_ne _ _ (by decide : "User-Agent" ≠ "Content-Type")]
      exact lookupTok_headerSet_self [] _ _
    · show lookupTok "Content-Type"
        (custom.foldl (fun acc p => headerSet acc p.1 p.2)
          (headerSet (headerSet [] "User-Agent" "irmago") "Content-Type"
            "application/json; charset=UTF-8")) =
        some "application/json; charset=UTF-8"
      rw [lookupTok_foldl_headerSet custom _ hct]
      exact lookupTok_headerSet_self _ _ _

/-- Witness for C9's amended theorem: a bare-string body with one
unrelated custom header. -/
theorem request_headers_spec_witness :
    ((∀ p ∈ [(("Authorization" : String), ("x" : String))], p.1 ≠ "User-Agent") ∧
      (∀ p ∈ [(("Authorization" : String), ("x" : String))], p.1 ≠ "Content-Type")) ∧
      (lookupTok "User-Agent"
          (requestHeaders (ReqObject.str "tok") [("Authorization", "x")]) =
        some "irmago" ∧
      (∀ s, ReqObject.str "tok" = ReqObject.str s →
        lookupTok "Content-Type"
            (requestHeaders (ReqObject.str "tok") [("Authorization", "x")]) =
          some "text/plain; charset=UTF-8") ∧
      (∀ b, ReqObject.str "tok" = ReqObject.jsonVal b →
        lookupTok "Content-Type"
            (requestHeaders (ReqObject.str "tok") [("Authorization", "x")]) =
          some "application/json; charset=UTF-8") ∧
      (ReqObject.str "tok" = ReqObject.none →
        lookupTok "Content-Type"
            (requestHeaders (ReqObject.str "tok") [("Authorization", "x")]) =
          none)) :=
  ⟨⟨by decide, by decide⟩,
    request_headers_spec (ReqObject.str "tok") [("Authorization", "x")]
      (by decide) (by decide)⟩

/-- C10: a DELETE that reaches the server returns success immediately,
without inspecting the response status or body: `Delete` never
surfaces an `api` or `serverResponse` error, whatever the status
code. -/
theorem delete_ignores_response (env : HttpExchange)
    (hdo : env.doFails = false) :
    transportDelete env = Except.ok ReqResult.notFilled := by
  simp [transportDelete, request, hdo]

/-- Witness for C10: a DELETE answered with status 500 still returns
success. -/
theorem delete_ignores_response_witness :
    (envPlain.doFails = false ∧ envPlain.statusCode = 500) ∧
      transportDelete envPlain = Except.ok ReqResult.notFilled :=
  ⟨⟨rfl, rfl⟩, delete_ignores_response envPlain rfl⟩

end Irmago
